import Mathlib

/-!
Shallow embedding of the fin-analyzer backend core (CSV bank parsers,
amount and date normalisation, duplicate detection on import, rule based
and LLM based categorization, and the category/transaction route guards),
together with theorems settling the behavioural claims about that code.

Python floats are modelled as exact rationals plus the special values
inf, -inf and nan; the operations used by the code (negation, absolute
value, subtraction, sign tests) are exact on these, so no rounding issue
arises.  Machine strings are processed through structural recursion on
their character lists so that every definition evaluates inside the
kernel.  External effects (the regex engine, the JSON decoder, the LLM
transport) enter as explicit function or value parameters, mirroring the
library boundaries of the source.
-/

namespace FinAnalyzer

/-- ASCII whitespace characters removed by the Python str.strip call. -/
def pyIsSpace (c : Char) : Bool :=
  c = ' ' || c = '\t' || c = '\n' || c = '\r' || c = '\x0b' || c = '\x0c'

/-- Strip whitespace from both ends of a character list (Python str.strip). -/
def stripChars (l : List Char) : List Char :=
  ((l.dropWhile pyIsSpace).reverse.dropWhile pyIsSpace).reverse

/-- Python str.strip on a string. -/
def pyStrip (s : String) : String := String.mk (stripChars s.toList)

/-- ASCII lower casing of one character (Python str.lower; the Hebrew text
appearing in the data has no case and is unaffected). -/
def lowerChar (c : Char) : Char :=
  if 'A' ≤ c && c ≤ 'Z' then Char.ofNat (c.toNat + 32) else c

/-- Python str.lower on a string. -/
def lowerS (s : String) : String := String.mk (s.toList.map lowerChar)

/-- Substring containment, the Python `in` operator on str. -/
def containsSub (hay pat : List Char) : Bool :=
  pat.isPrefixOf hay ||
    match hay with
    | [] => false
    | _ :: t => containsSub t pat

/-- Python `pat in s` on strings. -/
def containsS (s pat : String) : Bool := containsSub s.toList pat.toList

/-- Fueled worker for Python str.split with a non-empty separator. -/
def splitOnGo (sep : List Char) : Nat → List Char → List Char → List (List Char)
  | 0, rest, acc => [acc.reverse ++ rest]
  | fuel + 1, l, acc =>
    match l with
    | [] => [acc.reverse]
    | c :: cs =>
      if sep.isPrefixOf (c :: cs) then
        acc.reverse :: splitOnGo sep fuel ((c :: cs).drop sep.length) []
      else
        splitOnGo sep fuel cs (c :: acc)

/-- Python str.split with an explicit non-empty separator. -/
def splitOnL (sep l : List Char) : List (List Char) :=
  if sep.isEmpty then [l] else splitOnGo sep (l.length + 1) l []

/-- Python float values: finite values exactly as rationals, plus the
special values produced by float parsing. -/
inductive PyFloat where
  | finite (q : ℚ)
  | inf
  | negInf
  | nan
deriving DecidableEq, Repr

/-- Python unary minus on float. -/
def pyNeg : PyFloat → PyFloat
  | .finite q => .finite (-q)
  | .inf => .negInf
  | .negInf => .inf
  | .nan => .nan

/-- Python abs on float. -/
def pyAbs : PyFloat → PyFloat
  | .finite q => .finite |q|
  | .inf => .inf
  | .negInf => .inf
  | .nan => .nan

/-- Python subtraction on float. -/
def pySub : PyFloat → PyFloat → PyFloat
  | .nan, _ => .nan
  | _, .nan => .nan
  | .inf, .inf => .nan
  | .inf, _ => .inf
  | .negInf, .negInf => .nan
  | .negInf, _ => .negInf
  | .finite _, .inf => .negInf
  | .finite _, .negInf => .inf
  | .finite a, .finite b => .finite (a - b)

/-- The Python comparison x <= 0 on a float (false on nan). -/
def pyNonPos : PyFloat → Bool
  | .finite q => decide (q ≤ 0)
  | .negInf => true
  | .inf => false
  | .nan => false

/-- The Python comparison x > 0 on a float (false on nan). -/
def pyPos : PyFloat → Bool
  | .finite q => decide (0 < q)
  | .inf => true
  | .negInf => false
  | .nan => false

/-- The float equality of a SQL comparison such as the duplicate query:
NaN never compares equal to anything (IEEE comparison; on the SQLite
backend a bound NaN is moreover converted to NULL, and a NULL comparison
never matches); every other value compares by value. -/
def sqlFloatEq : PyFloat → PyFloat → Bool
  | .nan, _ => false
  | _, .nan => false
  | a, b => a == b

/-- Numeric value of an ASCII digit. -/
def digitVal (c : Char) : Nat := c.toNat - 48

/-- Continuation of a digit group after an initial digit: single
underscores are allowed only between digits (the Python float grammar). -/
def goodRunAux : List Char → Bool
  | [] => true
  | ['_'] => false
  | '_' :: d :: rest => d.isDigit && goodRunAux rest
  | c :: rest => c.isDigit && goodRunAux rest

/-- A valid digit group of the Python float grammar: digit (["_"] digit)*. -/
def goodDigitRun : List Char → Bool
  | [] => false
  | d :: rest => d.isDigit && goodRunAux rest

/-- Value of the digits of a group, ignoring separating underscores. -/
def digitsVal (l : List Char) : Nat :=
  (l.filter Char.isDigit).foldl (fun a c => a * 10 + digitVal c) 0

def isDigitOrUnderscore (c : Char) : Bool := c.isDigit || c = '_'

/-- Consume an optional leading sign; returns (isNegative, rest). -/
def parseSign : List Char → (Bool × List Char)
  | '+' :: cs => (false, cs)
  | '-' :: cs => (true, cs)
  | cs => (false, cs)

def pow10 (n : Nat) : ℚ := (10 : ℚ) ^ n

/-- Exact value of a parsed decimal literal: sign, integer part, fraction
digits with their count, exponent sign and magnitude. -/
def decValue (neg : Bool) (i f k : Nat) (en : Bool) (e : Nat) : ℚ :=
  let m : ℚ := (i : ℚ) + (f : ℚ) / pow10 k
  let v : ℚ := if en then m / pow10 e else m * pow10 e
  if neg then -v else v

/-- Parse the mantissa of a Python float literal, returning the integer
part, the fraction digits with their count, and the unconsumed rest. -/
def parseMantissa (cs : List Char) : Option (Nat × Nat × Nat × List Char) :=
  let (intRun, rest1) := cs.span isDigitOrUnderscore
  match rest1 with
  | '.' :: cs2 =>
    let (fracRun, rest2) := cs2.span isDigitOrUnderscore
    if intRun.isEmpty && fracRun.isEmpty then none
    else if (intRun.isEmpty || goodDigitRun intRun)
        && (fracRun.isEmpty || goodDigitRun fracRun) then
      some (digitsVal intRun, digitsVal fracRun,
        (fracRun.filter Char.isDigit).length, rest2)
    else none
  | _ =>
    if goodDigitRun intRun then some (digitsVal intRun, 0, 0, rest1) else none

/-- Parse the optional exponent of a Python float literal; the input must
be fully consumed.  Returns the exponent sign and magnitude. -/
def parseExponent : List Char → Option (Bool × Nat)
  | [] => some (false, 0)
  | c :: cs =>
    if c = 'e' || c = 'E' then
      let (en, cs2) := parseSign cs
      let (erun, rest) := cs2.span isDigitOrUnderscore
      if goodDigitRun erun && rest.isEmpty then some (en, digitsVal erun)
      else none
    else none

/-- The Python float constructor on the characters of a string: strips
whitespace, reads an optional sign, accepts inf, infinity and nan case
insensitively, otherwise a decimal mantissa with optional exponent.
Returns none where float() raises ValueError. -/
def parseFloatChars (cs0 : List Char) : Option PyFloat :=
  let cs1 := stripChars cs0
  let (neg, cs2) := parseSign cs1
  let low := cs2.map lowerChar
  if low = "inf".toList || low = "infinity".toList then
    some (if neg then .negInf else .inf)
  else if low = "nan".toList then some .nan
  else
    match parseMantissa cs2 with
    | none => none
    | some (i, f, k, rest) =>
      match parseExponent rest with
      | none => none
      | some (en, e) => some (.finite (decValue neg i f k en e))

/-- Python float(s), none where it raises. -/
def pyFloat? (s : String) : Option PyFloat := parseFloatChars s.toList

/-- The character cleanup of BaseParser.clean_amount: remove every shekel
sign, comma and space, then strip. -/
def stripAmountChars (l : List Char) : List Char :=
  stripChars (l.filter (fun c => c ≠ '₪' && c ≠ ',' && c ≠ ' '))

/-- The parenthesised-negative step of BaseParser.clean_amount. -/
def applyParens (l : List Char) : List Char :=
  if l.head? = some '(' && l.getLast? = some ')' then
    '-' :: (l.drop 1).dropLast
  else l

/-- BaseParser.clean_amount on a present cell string. -/
def cleanAmountS (s : String) : PyFloat :=
  match parseFloatChars (applyParens (stripAmountChars s.toList)) with
  | some v => v
  | none => .finite 0

/-- BaseParser.clean_amount on a cell; a missing cell (pandas NA) is the
none case and yields 0.0. -/
def cleanAmount : Option String → PyFloat
  | none => .finite 0
  | some s => cleanAmountS s

/-- A calendar date as produced by datetime.strptime. -/
structure PyDate where
  year : Nat
  month : Nat
  day : Nat
deriving DecidableEq, Repr

def isLeap (y : Nat) : Bool := (y % 4 = 0 && y % 100 ≠ 0) || y % 400 = 0

def daysInMonth (y m : Nat) : Nat :=
  if m = 2 then (if isLeap y then 29 else 28)
  else if m = 4 || m = 6 || m = 9 || m = 11 then 30 else 31

/-- The datetime constructor checks performed by strptime on the parsed
fields; none where it raises ValueError. -/
def mkDate? (y m d : Nat) : Option PyDate :=
  if 1 ≤ y && y ≤ 9999 && 1 ≤ m && m ≤ 12 && 1 ≤ d && d ≤ daysInMonth y m then
    some ⟨y, m, d⟩
  else none

def allDigits (l : List Char) : Bool := !l.isEmpty && l.all Char.isDigit

/-- The %d directive of strptime: one or two digits, value 1 to 31. -/
def parseDay? (l : List Char) : Option Nat :=
  if allDigits l && l.length ≤ 2 then
    let v := digitsVal l
    if 1 ≤ v && v ≤ 31 then some v else none
  else none

/-- The %m directive of strptime: one or two digits, value 1 to 12. -/
def parseMonth? (l : List Char) : Option Nat :=
  if allDigits l && l.length ≤ 2 then
    let v := digitsVal l
    if 1 ≤ v && v ≤ 12 then some v else none
  else none

/-- The %Y directive of strptime: exactly four digits. -/
def parseYear4? (l : List Char) : Option Nat :=
  if allDigits l && l.length = 4 then some (digitsVal l) else none

/-- The %y directive of strptime: exactly two digits, 0-68 mapping to
2000-2068 and 69-99 to 1969-1999. -/
def parseYear2? (l : List Char) : Option Nat :=
  if allDigits l && l.length = 2 then
    let v := digitsVal l
    some (if v ≤ 68 then 2000 + v else 1900 + v)
  else none

/-- strptime with a day/month/four-digit-year format and the given
separator. -/
def parseDMY4 (sep : Char) (l : List Char) : Option PyDate :=
  match splitOnL [sep] l with
  | [d, m, y] => do mkDate? (← parseYear4? y) (← parseMonth? m) (← parseDay? d)
  | _ => none

/-- strptime with the %Y-%m-%d format. -/
def parseYMD4 (sep : Char) (l : List Char) : Option PyDate :=
  match splitOnL [sep] l with
  | [y, m, d] => do mkDate? (← parseYear4? y) (← parseMonth? m) (← parseDay? d)
  | _ => none

/-- strptime with the %d/%m/%y format. -/
def parseDMY2 (sep : Char) (l : List Char) : Option PyDate :=
  match splitOnL [sep] l with
  | [d, m, y] => do mkDate? (← parseYear2? y) (← parseMonth? m) (← parseDay? d)
  | _ => none

/-- The ordered default format list of BaseParser.parse_date. -/
def dateFormats : List (List Char → Option PyDate) :=
  [parseDMY4 '/', parseDMY4 '-', parseYMD4 '-', parseDMY4 '.', parseDMY2 '/']

/-- BaseParser.parse_date on a present cell: strip, then return the first
format that succeeds. -/
def parseDateS (s : String) : Option PyDate :=
  dateFormats.findSome? (fun f => f (stripChars s.toList))

/-- BaseParser.parse_date on a cell; a missing cell (pandas NA) is none. -/
def parseDate : Option String → Option PyDate
  | none => none
  | some s => parseDateS s

/-- The ParsedTransaction value object of parsers/base.py.  The raw_data
dictionary carried by the source object is never consumed by the import
step and is omitted here. -/
structure ParsedTransaction where
  date : PyDate
  amount : PyFloat
  description : String
  merchant : Option String
  original_currency : Option String
  original_amount : Option PyFloat
  reference : Option String
deriving DecidableEq, Repr

/-- One data row of a Leumi CSV under the detected columns; a none cell is
a pandas NA value.  The debit or credit column may be absent, which the
code treats exactly as an NA cell (clean_amount yields 0.0 either way). -/
structure LeumiRow where
  date : Option String
  description : Option String
  debit : Option String
  credit : Option String
  reference : Option String
deriving DecidableEq, Repr

/-- The body of the row loop of LeumiParser.parse: rows whose date cell is
missing or unparseable yield none and are skipped. -/
def leumiRowToTx? (r : LeumiRow) : Option ParsedTransaction :=
  match r.date with
  | none => none
  | some d =>
    match parseDateS d with
    | none => none
    | some date =>
      some { date
             amount := pySub (cleanAmount r.credit) (cleanAmount r.debit)
             description := match r.description with | some s => pyStrip s | none => ""
             merchant := none
             original_currency := none
             original_amount := none
             reference := r.reference.map pyStrip }

/-- LeumiParser.parse on the data rows of a loaded CSV. -/
def leumiParse (rows : List LeumiRow) : List ParsedTransaction :=
  rows.filterMap leumiRowToTx?

/-- One data row of a Max CSV under the detected columns. -/
structure MaxRow where
  date : Option String
  merchant : Option String
  amount : Option String
  currency : Option String
  original_amount : Option String
deriving DecidableEq, Repr

/-- The body of the row loop of MaxParser.parse.  hasOrigCol records
whether an original-amount column was found: when it is absent the code
falls back to the negated amount. -/
def maxRowToTx? (hasOrigCol : Bool) (r : MaxRow) : Option ParsedTransaction :=
  match r.date with
  | none => none
  | some d =>
    match parseDateS d with
    | none => none
    | some date =>
      let merchant := match r.merchant with | some m => pyStrip m | none => ""
      let amount := pyNeg (pyAbs (cleanAmount r.amount))
      let oco :=
        match r.currency with
        | some cur =>
          let c := pyStrip cur
          if c ≠ "ILS" then
            (some c, some (if hasOrigCol then cleanAmount r.original_amount else amount))
          else (none, none)
        | none => (none, none)
      some { date, amount
             description := merchant
             merchant := some merchant
             original_currency := oco.1
             original_amount := oco.2
             reference := none }

/-- MaxParser.parse on the data rows of a loaded CSV. -/
def maxParse (hasOrigCol : Bool) (rows : List MaxRow) : List ParsedTransaction :=
  rows.filterMap (maxRowToTx? hasOrigCol)

/-- One data row of a Cal CSV under the detected columns. -/
structure CalRow where
  date : Option String
  merchant : Option String
  amount : Option String
  description : Option String
deriving DecidableEq, Repr

/-- The body of the row loop of CalParser.parse. -/
def calRowToTx? (r : CalRow) : Option ParsedTransaction :=
  match r.date with
  | none => none
  | some d =>
    match parseDateS d with
    | none => none
    | some date =>
      let merchant := r.merchant.map pyStrip
      let description :=
        match r.description with
        | some s => pyStrip s
        | none => merchant.getD ""
      let amount := pyNeg (pyAbs (cleanAmount r.amount))
      some { date, amount, description, merchant
             original_currency := none
             original_amount := none
             reference := none }

/-- CalParser.parse on the data rows of a loaded CSV. -/
def calParse (rows : List CalRow) : List ParsedTransaction :=
  rows.filterMap calRowToTx?

/-- The persisted Transaction record of models.py, with the fields the
core reads or writes.  The column defaults of models.py (category_id,
method and confidence null, is_categorized false) appear wherever a
Transaction is constructed. -/
structure Transaction where
  account_id : Int
  date : PyDate
  amount : PyFloat
  description : String
  merchant : Option String
  category_id : Option Int
  is_categorized : Bool
  categorization_method : Option String
  categorization_confidence : Option ℚ
  original_currency : Option String
  original_amount : Option PyFloat
  notes : Option String
  source_file : Option String
  source_row : Option Nat
deriving DecidableEq, Repr

/-- The persisted Category record of models.py. -/
structure Category where
  id : Int
  name : String
  parent_id : Option Int
  category_type : String
  icon : Option String
  color : Option String
  is_system : Bool
deriving DecidableEq, Repr

/-- The persisted CategorizationRule record of models.py. -/
structure CategorizationRule where
  category_id : Int
  rule_type : String
  pattern : String
  priority : Int
  is_active : Bool
deriving DecidableEq, Repr

/-- Python truthiness of an Optional[int]: None and 0 are falsy. -/
def pyTruthyOptInt : Option Int → Bool
  | none => false
  | some n => n != 0

/-- Python truthiness of an Optional[str]: None and the empty string are
falsy. -/
def pyTruthyOptStr : Option String → Bool
  | none => false
  | some s => s != ""

/-- CategorizationService._rule_matches.  The regex engine is external:
compile maps a (lowercased) pattern to a search predicate, or to none
where re.compile raises re.error; the code turns that case into a
non-match. -/
def ruleMatches (compile : String → Option (String → Bool))
    (rule : CategorizationRule) (description merchant : String) : Bool :=
  let pattern := lowerS rule.pattern
  if rule.rule_type == "keyword" then
    containsS description pattern || containsS merchant pattern
  else if rule.rule_type == "regex" then
    match compile pattern with
    | some search => search description || search merchant
    | none => false
  else if rule.rule_type == "merchant" then
    pattern == merchant
  else false

/-- The ordering used by CategorizationService._load_rules: priority
descending. -/
def ruleGE (a b : CategorizationRule) : Prop := b.priority ≤ a.priority

instance : DecidableRel ruleGE :=
  fun a b => inferInstanceAs (Decidable (b.priority ≤ a.priority))

instance : IsTotal CategorizationRule ruleGE :=
  ⟨fun a b => le_total b.priority a.priority⟩

instance : IsTrans CategorizationRule ruleGE :=
  ⟨fun _ _ _ hab hbc => le_trans hbc hab⟩

/-- CategorizationService._load_rules: the active rules ordered by
priority descending (the order of equal priorities is not fixed by the
query; a stable sort of the stored list stands in for it, and the
theorems quantify over permutations of the stored list). -/
def loadRules (rules : List CategorizationRule) : List CategorizationRule :=
  (rules.filter (·.is_active)).insertionSort ruleGE

/-- CategorizationService._categorize_by_rules. -/
def categorizeByRules (compile : String → Option (String → Bool))
    (rules : List CategorizationRule) (transaction : Transaction) : Option Int :=
  let text := lowerS transaction.description
  let merchant := lowerS (transaction.merchant.getD "")
  ((loadRules rules).find? (fun rule => ruleMatches compile rule text merchant)).map
    (·.category_id)

/-- The fields read off the JSON object of the LLM response by
_categorize_by_llm via result.get. -/
structure LlmJson where
  category_id : Option Int
  confidence : Option ℚ
deriving Repr

/-- The response post-processing of _categorize_by_llm: strip, then peel
an optional Markdown code fence. -/
def extractResponseText (text : String) : String :=
  let rt := stripChars text.toList
  let fj := "```json".toList
  let f3 := "```".toList
  if containsSub rt fj then
    String.mk (stripChars ((splitOnL f3 ((splitOnL fj rt).getD 1 [])).getD 0 []))
  else if containsSub rt f3 then
    String.mk (stripChars ((splitOnL f3 ((splitOnL f3 rt).getD 1 [])).getD 0 []))
  else String.mk rt

/-- CategorizationService._categorize_by_llm.  jsonParse is the external
JSON decoder (none where json.loads raises or the result has no usable
fields); call is the outcome of the transport to the API (error where the
client raises).  Every failure path of the source lands in the catch-all
except and returns (None, 0.0). -/
def categorizeByLlm (jsonParse : String → Option LlmJson) (apiKey : String)
    (categories : List Category) (call : Except String String) : Option Int × ℚ :=
  if apiKey == "" then (none, 0)
  else
    let expense := categories.filter (fun c => c.category_type == "expense")
    if expense.isEmpty then (none, 0)
    else
      match call with
      | .error _ => (none, 0)
      | .ok text =>
        match jsonParse (extractResponseText text) with
        | none => (none, 0)
        | some result =>
          match result.category_id with
          | some cid =>
            if cid != 0 then
              match categories.find? (fun c => c.id == cid) with
              | some _ => (some cid, result.confidence.getD (1 / 2))
              | none => (none, 0)
            else (none, 0)
          | none => (none, 0)

/-- CategorizationService.categorize_transaction. -/
def categorizeTransaction (compile : String → Option (String → Bool))
    (rules : List CategorizationRule) (jsonParse : String → Option LlmJson)
    (apiKey : String) (categories : List Category) (call : Except String String)
    (use_llm_fallback : Bool) (transaction : Transaction) : Option Int × String × ℚ :=
  let rc := categorizeByRules compile rules transaction
  if pyTruthyOptInt rc then (rc, "rule", 1)
  else if use_llm_fallback then
    let res := categorizeByLlm jsonParse apiKey categories call
    if pyTruthyOptInt res.1 then (res.1, "llm", res.2)
    else (none, "none", 0)
  else (none, "none", 0)

/-- The assignment block shared by categorize_all_uncategorized and the
single-transaction categorize route: a truthy category id sets all four
categorization fields, otherwise the transaction is left untouched. -/
def applyCategorizationResult (t : Transaction) (res : Option Int × String × ℚ) :
    Transaction :=
  if pyTruthyOptInt res.1 then
    { t with category_id := res.1
             is_categorized := true
             categorization_method := some res.2.1
             categorization_confidence := some res.2.2 }
  else t

/-- The statistics dictionary of categorize_all_uncategorized. -/
structure CatStats where
  total : Nat
  categorized : Nat
  failed : Nat
  by_rule : Nat
  by_llm : Nat
deriving DecidableEq, Repr

/-- The per-transaction tally of categorize_all_uncategorized. -/
def catStatsStep (res : Option Int × String × ℚ) (s : CatStats) : CatStats :=
  if pyTruthyOptInt res.1 then
    let s1 := { s with categorized := s.categorized + 1 }
    if res.2.1 == "rule" then { s1 with by_rule := s1.by_rule + 1 }
    else if res.2.1 == "llm" then { s1 with by_llm := s1.by_llm + 1 }
    else s1
  else { s with failed := s.failed + 1 }

/-- CategorizationService.categorize_all_uncategorized: select the
uncategorized transactions, categorize each (callOf gives the transport
outcome of the LLM call for each transaction), mutate the successful
ones, and tally the statistics. -/
def categorizeAllUncategorized (compile : String → Option (String → Bool))
    (rules : List CategorizationRule) (jsonParse : String → Option LlmJson)
    (apiKey : String) (categories : List Category)
    (callOf : Transaction → Except String String) (use_llm_fallback : Bool)
    (transactions : List Transaction) : List Transaction × CatStats :=
  let uncategorized := transactions.filter (fun t => !t.is_categorized)
  let stats := uncategorized.foldl
    (fun s t => catStatsStep
      (categorizeTransaction compile rules jsonParse apiKey categories (callOf t)
        use_llm_fallback t) s)
    ⟨uncategorized.length, 0, 0, 0, 0⟩
  let updated := transactions.map (fun t =>
    if t.is_categorized then t
    else applyCategorizationResult t
      (categorizeTransaction compile rules jsonParse apiKey categories (callOf t)
        use_llm_fallback t))
  (updated, stats)

/-- The statistics dictionary of ImportService.import_transactions. -/
structure ImportStats where
  total_parsed : Nat
  imported : Nat
  skipped_duplicates : Nat
  errors : Nat
  bank : String
deriving DecidableEq, Repr

/-- The match predicate of ImportService._is_duplicate: equality on
account, date, amount and description.  The amount comparison is the SQL
float comparison of the query, under which a NaN amount never matches
anything - including an identical stored row. -/
def matchesParsed (account_id : Int) (p : ParsedTransaction) (t : Transaction) : Bool :=
  t.account_id == account_id && t.date == p.date && sqlFloatEq t.amount p.amount
    && t.description == p.description

/-- ImportService._is_duplicate over the stored transactions (the query
autoflushes, so rows added earlier in the same import are visible). -/
def isDuplicate (transactions : List Transaction) (account_id : Int)
    (p : ParsedTransaction) : Bool :=
  transactions.any (matchesParsed account_id p)

/-- The Transaction constructed by the import loop for a parsed row. -/
def mkImportedTransaction (account_id : Int) (source_file : String) (row_idx : Nat)
    (p : ParsedTransaction) : Transaction :=
  { account_id
    date := p.date
    amount := p.amount
    description := p.description
    merchant := p.merchant
    category_id := none
    is_categorized := false
    categorization_method := none
    categorization_confidence := none
    original_currency := p.original_currency
    original_amount := p.original_amount
    notes := none
    source_file := some source_file
    source_row := some (row_idx + 1) }

/-- The row loop of ImportService.import_transactions.  The per-row
except path of the source is represented by the errors counter; nothing
inside the loop body itself raises in this model, since the one failure
the source can hit there - the autoflush of a previously added NaN row
inside the duplicate query - poisons the session and ends in the raised
final commit, which importTransactions models as the error result. -/
def importLoop (account_id : Int) (source_file : String) (skip_duplicates : Bool) :
    List Transaction → List ParsedTransaction → Nat → ImportStats →
      List Transaction × ImportStats
  | txs, [], _, stats => (txs, stats)
  | txs, p :: ps, idx, stats =>
    if skip_duplicates && isDuplicate txs account_id p then
      importLoop account_id source_file skip_duplicates txs ps (idx + 1)
        { stats with skipped_duplicates := stats.skipped_duplicates + 1 }
    else
      importLoop account_id source_file skip_duplicates
        (txs ++ [mkImportedTransaction account_id source_file idx p]) ps (idx + 1)
        { stats with imported := stats.imported + 1 }

/-- ImportService.import_transactions, after account validation and
format detection, on the list of transactions the parser produced.  The
row loop runs and db.commit then flushes the newly added rows (the
suffix beyond the pre-existing store): on the configured SQLite backend
a NaN amount is bound as NULL and violates the NOT NULL amount column of
models.py, so the commit raises IntegrityError out of the route and
nothing is persisted - and a NaN row is always among the pending inserts
because the duplicate query can never match it. -/
def importTransactions (transactions : List Transaction) (account_id : Int)
    (source_file : String) (parsed : List ParsedTransaction)
    (skip_duplicates : Bool) (bank : String) :
    Except String (List Transaction × ImportStats) :=
  let res := importLoop account_id source_file skip_duplicates transactions parsed 0
    ⟨parsed.length, 0, 0, 0, bank⟩
  if (res.1.drop transactions.length).all (fun t => !(t.amount == PyFloat.nan)) then
    .ok res
  else .error "IntegrityError: NOT NULL constraint failed: transactions.amount"

/-- The update_transaction route of transaction_routes.py on the looked-up
transaction: a present category id must exist, and then the four
categorization fields are set with method manual and confidence 1.0. -/
def updateTransaction (categories : List Category) (transaction : Transaction)
    (category_id : Option Int) (notes : Option String) : Except String Transaction :=
  match category_id with
  | some cid =>
    match categories.find? (fun c => c.id == cid) with
    | none => .error "Category not found"
    | some _ =>
      let t := { transaction with
                   category_id := some cid
                   is_categorized := true
                   categorization_method := some "manual"
                   categorization_confidence := some 1 }
      .ok (match notes with | some n => { t with notes := some n } | none => t)
  | none =>
    .ok (match notes with
         | some n => { transaction with notes := some n }
         | none => transaction)

/-- The database state seen by the category routes. -/
structure Db where
  categories : List Category
  transactions : List Transaction
  rules : List CategorizationRule
deriving Repr

/-- The transaction count queried by delete_category. -/
def transactionCount (db : Db) (category_id : Int) : Nat :=
  (db.transactions.filter (fun t => t.category_id == some category_id)).length

/-- The subcategory count queried by delete_category. -/
def subcategoryCount (db : Db) (category_id : Int) : Nat :=
  (db.categories.filter (fun c => c.parent_id == some category_id)).length

/-- The delete_category route of category_routes.py.  An error result is
raised before any mutation, so the caller keeps the unchanged state. -/
def deleteCategory (db : Db) (category_id : Int) : Except String (Db × String) :=
  match db.categories.find? (fun c => c.id == category_id) with
  | none => .error "Category not found"
  | some category =>
    if category.is_system then .error "Cannot delete system categories"
    else if 0 < transactionCount db category_id then
      .error ("Cannot delete category with " ++ toString (transactionCount db category_id)
        ++ " transactions. Re-categorize them first.")
    else if 0 < subcategoryCount db category_id then
      .error ("Cannot delete category with " ++ toString (subcategoryCount db category_id)
        ++ " subcategories. Delete or move them first.")
    else
      .ok ({ db with categories := db.categories.eraseP (fun c => c.id == category_id) },
        "Category deleted")

/-- The request body of the update_category route. -/
structure CategoryUpdate where
  name : Option String
  parent_id : Option Int
  icon : Option String
  color : Option String
deriving Repr

/-- The update_category route of category_routes.py. -/
def updateCategory (db : Db) (category_id : Int) (updates : CategoryUpdate) :
    Except String (Db × Category) :=
  match db.categories.find? (fun c => c.id == category_id) with
  | none => .error "Category not found"
  | some category =>
    if category.is_system && pyTruthyOptStr updates.name then
      .error "Cannot rename system categories"
    else
      let step1 : Except String Category :=
        if pyTruthyOptStr updates.name then
          if db.categories.any
              (fun o => o.name == updates.name.getD "" && o.id != category_id) then
            .error "Category name already exists"
          else .ok { category with name := updates.name.getD "" }
        else .ok category
      match step1 with
      | .error e => .error e
      | .ok c1 =>
        let step2 : Except String Category :=
          match updates.parent_id with
          | some p =>
            if p == category_id then .error "Category cannot be its own parent"
            else if p > 0 && (db.categories.find? (fun o => o.id == p)).isNone then
              .error "Parent category not found"
            else .ok { c1 with parent_id := if p > 0 then some p else none }
          | none => .ok c1
        match step2 with
        | .error e => .error e
        | .ok c2 =>
          let c3 := match updates.icon with | some i => { c2 with icon := some i } | none => c2
          let c4 := match updates.color with | some co => { c3 with color := some co } | none => c3
          .ok ({ db with categories :=
                   db.categories.map (fun o => if o.id == category_id then c4 else o) }, c4)

/-- The merge_categories route of category_routes.py: both categories
must exist and the source must not be a system category; no other
validation is performed.  Matching transactions and rules are pointed at
the target and db.delete(source) is issued; the commit then runs the
SQLAlchemy flush.  Category.transactions and Category.rules (models.py)
carry no delete cascade, so children still referencing the deleted source
at flush time get their foreign key set to NULL before the row delete:
categorization_rules.category_id is NOT NULL, so any rule still
referencing the source aborts the commit with IntegrityError and nothing
is persisted, while still-referencing transactions (nullable column) are
left with no category.  After a merge into a different target no child
still references the source, so its flush is the plain row delete. -/
def mergeCategories (db : Db) (category_id target_category_id : Int) :
    Except String (Db × String) :=
  match db.categories.find? (fun c => c.id == category_id),
        db.categories.find? (fun c => c.id == target_category_id) with
  | some source, some _ =>
    if source.is_system then .error "Cannot merge system categories"
    else
      let movedTx := (db.transactions.filter
        (fun t => t.category_id == some category_id)).length
      let movedRules := (db.rules.filter
        (fun r => r.category_id == category_id)).length
      let txs2 := db.transactions.map (fun t =>
        if t.category_id == some category_id then
          { t with category_id := some target_category_id } else t)
      let rules2 := db.rules.map (fun r =>
        if r.category_id == category_id then
          { r with category_id := target_category_id } else r)
      if rules2.any (fun r => r.category_id == category_id) then
        .error "IntegrityError: NOT NULL constraint failed: categorization_rules.category_id"
      else
        .ok ({ categories := db.categories.eraseP (fun c => c.id == category_id)
               transactions := txs2.map (fun t =>
                 if t.category_id == some category_id then
                   { t with category_id := none } else t)
               rules := rules2 },
          "Merged " ++ toString movedTx ++ " transactions and " ++ toString movedRules
            ++ " rules into target category")
  | _, _ => .error "Category not found"

/-- The persisted-transaction states reachable through the operations the
code performs on a Transaction: creation by import, the shared
categorization assignment (bulk run or single-transaction route, rule or
LLM outcome), and the manual categorization or notes update of the
update_transaction route. -/
inductive Reachable : Transaction → Prop where
  | imported (account_id : Int) (source_file : String) (row_idx : Nat)
      (p : ParsedTransaction) :
      Reachable (mkImportedTransaction account_id source_file row_idx p)
  | categorized (t : Transaction) (compile : String → Option (String → Bool))
      (rules : List CategorizationRule) (jsonParse : String → Option LlmJson)
      (apiKey : String) (categories : List Category) (call : Except String String)
      (use_llm : Bool) :
      Reachable t →
      Reachable (applyCategorizationResult t
        (categorizeTransaction compile rules jsonParse apiKey categories call use_llm t))
  | manual (t t2 : Transaction) (categories : List Category)
      (category_id : Option Int) (notes : Option String) :
      Reachable t →
      updateTransaction categories t category_id notes = .ok t2 →
      Reachable t2

/-! ### General lemmas -/

theorem negAbs_not_pos (x : PyFloat) : pyPos (pyNeg (pyAbs x)) = false := by
  cases x with
  | finite q =>
    simp only [pyAbs, pyNeg, pyPos, decide_eq_false_iff_not, not_lt]
    exact neg_nonpos.mpr (abs_nonneg q)
  | inf => rfl
  | negInf => rfl
  | nan => rfl

theorem negAbs_nonPos (x : PyFloat) (hx : x ≠ .nan) :
    pyNonPos (pyNeg (pyAbs x)) = true := by
  cases x with
  | finite q =>
    simp only [pyAbs, pyNeg, pyNonPos, decide_eq_true_eq]
    exact neg_nonpos.mpr (abs_nonneg q)
  | inf => rfl
  | negInf => rfl
  | nan => exact absurd rfl hx

theorem length_filterMap_add_none {α β : Type} (f : α → Option β) (l : List α) :
    (l.filterMap f).length + (l.filter (fun r => (f r).isNone)).length = l.length := by
  induction l with
  | nil => rfl
  | cons hd tl ih =>
    cases h : f hd <;>
      simp [List.filterMap_cons, List.filter_cons, h, Option.isNone] at ih ⊢ <;> omega

theorem leumiRowToTx?_isNone (r : LeumiRow) :
    (leumiRowToTx? r).isNone = (parseDate r.date).isNone := by
  cases hd : r.date with
  | none => simp [leumiRowToTx?, parseDate, hd]
  | some d =>
    cases hp : parseDateS d <;> simp [leumiRowToTx?, parseDate, hd, hp]

theorem maxRowToTx?_isNone (hasOrigCol : Bool) (r : MaxRow) :
    (maxRowToTx? hasOrigCol r).isNone = (parseDate r.date).isNone := by
  cases hd : r.date with
  | none => simp [maxRowToTx?, parseDate, hd]
  | some d =>
    cases hp : parseDateS d <;> simp [maxRowToTx?, parseDate, hd, hp]

theorem calRowToTx?_isNone (r : CalRow) :
    (calRowToTx? r).isNone = (parseDate r.date).isNone := by
  cases hd : r.date with
  | none => simp [calRowToTx?, parseDate, hd]
  | some d =>
    cases hp : parseDateS d <;> simp [calRowToTx?, parseDate, hd, hp]

theorem sqlFloatEq_self (x : PyFloat) (h : x ≠ .nan) : sqlFloatEq x x = true := by
  cases x with
  | finite q => simp [sqlFloatEq]
  | inf => rfl
  | negInf => rfl
  | nan => exact absurd rfl h

theorem matchesParsed_self (account_id : Int) (source_file : String) (idx : Nat)
    (p : ParsedTransaction) (h : p.amount ≠ PyFloat.nan) :
    matchesParsed account_id p (mkImportedTransaction account_id source_file idx p) = true := by
  simp [matchesParsed, mkImportedTransaction, sqlFloatEq_self p.amount h]

theorem isDuplicate_append (txs more : List Transaction) (a : Int) (p : ParsedTransaction)
    (h : isDuplicate txs a p = true) : isDuplicate (txs ++ more) a p = true := by
  have h2 : txs.any (matchesParsed a p) = true := h
  simp [isDuplicate, List.any_append, h2]

theorem importLoop_extends (a : Int) (src : String) (sd : Bool)
    (ps : List ParsedTransaction) :
    ∀ (txs : List Transaction) (idx : Nat) (s : ImportStats),
      ∃ more, (importLoop a src sd txs ps idx s).1 = txs ++ more ∧
        ∀ t ∈ more, ∃ p ∈ ps, ∃ j, t = mkImportedTransaction a src j p := by
  induction ps with
  | nil => exact fun txs idx s => ⟨[], by simp [importLoop], by simp⟩
  | cons p ps ih =>
    intro txs idx s
    rw [importLoop]
    by_cases hd : (sd && isDuplicate txs a p) = true
    · rw [if_pos hd]
      obtain ⟨more, hm, hmem⟩ := ih txs (idx + 1) _
      exact ⟨more, hm, fun t ht => by
        obtain ⟨q, hq, j, hj⟩ := hmem t ht
        exact ⟨q, List.mem_cons_of_mem p hq, j, hj⟩⟩
    · rw [if_neg hd]
      obtain ⟨more, hm, hmem⟩ := ih (txs ++ [mkImportedTransaction a src idx p]) (idx + 1) _
      refine ⟨mkImportedTransaction a src idx p :: more, by rw [hm]; simp, ?_⟩
      intro t ht
      rcases List.mem_cons.mp ht with rfl | ht2
      · exact ⟨p, List.mem_cons_self p ps, idx, rfl⟩
      · obtain ⟨q, hq, j, hj⟩ := hmem t ht2
        exact ⟨q, List.mem_cons_of_mem p hq, j, hj⟩

theorem importLoop_covers (a : Int) (src : String) :
    ∀ (ps : List ParsedTransaction) (txs : List Transaction) (idx : Nat)
      (s : ImportStats) (p : ParsedTransaction), p ∈ ps → p.amount ≠ PyFloat.nan →
      isDuplicate (importLoop a src true txs ps idx s).1 a p = true := by
  intro ps
  induction ps with
  | nil => intro txs idx s p hp; cases hp
  | cons q qs ih =>
    intro txs idx s p hp hnum
    rw [importLoop]
    by_cases hdup : isDuplicate txs a q = true
    · rw [if_pos (by simp [hdup])]
      rcases List.mem_cons.mp hp with rfl | hmem
      · obtain ⟨more, hm, _⟩ := importLoop_extends a src true qs txs (idx + 1)
          { s with skipped_duplicates := s.skipped_duplicates + 1 }
        rw [hm]
        exact isDuplicate_append _ _ _ _ hdup
      · exact ih txs (idx + 1) _ p hmem hnum
    · rw [if_neg (by simp [hdup])]
      rcases List.mem_cons.mp hp with rfl | hmem
      · obtain ⟨more, hm, _⟩ := importLoop_extends a src true qs
          (txs ++ [mkImportedTransaction a src idx p]) (idx + 1)
          { s with imported := s.imported + 1 }
        rw [hm]
        apply isDuplicate_append
        simp [isDuplicate, matchesParsed_self a src idx p hnum]
      · exact ih _ (idx + 1) _ p hmem hnum

theorem importLoop_allDup (a : Int) (src : String) :
    ∀ (ps : List ParsedTransaction) (txs : List Transaction) (idx : Nat)
      (s : ImportStats),
      (∀ p ∈ ps, isDuplicate txs a p = true) →
      importLoop a src true txs ps idx s
        = (txs, { s with skipped_duplicates := s.skipped_duplicates + ps.length }) := by
  intro ps
  induction ps with
  | nil => intro txs idx s _; simp [importLoop]
  | cons q qs ih =>
    intro txs idx s h
    rw [importLoop, if_pos (by simp [h q (List.mem_cons_self q qs)])]
    rw [ih txs (idx + 1) _ (fun p hp => h p (List.mem_cons_of_mem q hp))]
    have harith : s.skipped_duplicates + 1 + qs.length
        = s.skipped_duplicates + (q :: qs).length := by simp; omega
    rw [show ({ s with skipped_duplicates := s.skipped_duplicates + 1 } : ImportStats).skipped_duplicates + qs.length = s.skipped_duplicates + 1 + qs.length from rfl, harith]

/-! ### Claim theorems -/

/-- C6: clean_amount maps "(100)" to -100.0, "1,234.56" to 1234.56 and
"₪50" to 50.0, and maps every input that is still non-numeric after the
cleanup (symbol/comma/space removal, strip, and the parenthesis-negative
rewrite) to 0.0; as a total function of the model it never raises. -/
theorem clean_amount_contract :
    cleanAmount (some "(100)") = .finite (-100) ∧
    cleanAmount (some "1,234.56") = .finite (1234.56 : ℚ) ∧
    cleanAmount (some "₪50") = .finite 50 ∧
    ∀ s : String,
      parseFloatChars (applyParens (stripAmountChars s.toList)) = none →
      cleanAmount (some s) = .finite 0 := by
  refine ⟨?_, ?_, ?_, ?_⟩
  · rw [show cleanAmount (some "(100)") = .finite (decValue true 100 0 0 false 0) from rfl]
    norm_num [decValue, pow10]
  · rw [show cleanAmount (some "1,234.56")
        = .finite (decValue false 1234 56 2 false 0) from rfl]
    norm_num [decValue, pow10]
  · rw [show cleanAmount (some "₪50") = .finite (decValue false 50 0 0 false 0) from rfl]
    norm_num [decValue, pow10]
  · intro s h
    have h2 : parseFloatChars (applyParens (stripAmountChars s.data)) = none := h
    simp [cleanAmount, cleanAmountS, h2]

/-- Witness for C6 at the concrete non-numeric input "12ab". -/
theorem clean_amount_contract_witness : cleanAmount (some "12ab") = .finite 0 :=
  clean_amount_contract.2.2.2 "12ab" (by decide)

/-- C5 counterexample: the amount cell " nan" of an otherwise valid Max
row is a string (pandas NA filtering only catches the unpadded spellings),
clean_amount turns it into float nan, -abs(nan) is nan, and nan is not a
non-positive amount, refuting the claim as stated. -/
theorem credit_card_nan_amount :
    (maxRowToTx? true ⟨some "01/02/2024", some "shop", some " nan", none, none⟩).map
      (fun p => (p.amount, pyNonPos p.amount)) = some (PyFloat.nan, false) := by decide

/-- C5 (amended): every row parsed by the Max or the Cal parser carries
amount -abs(cleaned cell); that value is never positive, and whenever the
cleaned amount is an actual number (not NaN) it is non-positive, even for
an unsigned-positive amount string. -/
theorem credit_card_amounts_nonpositive :
    (∀ (hasOrigCol : Bool) (r : MaxRow) (p : ParsedTransaction),
      maxRowToTx? hasOrigCol r = some p →
      pyPos p.amount = false ∧
        (cleanAmount r.amount ≠ .nan → pyNonPos p.amount = true)) ∧
    (∀ (r : CalRow) (p : ParsedTransaction),
      calRowToTx? r = some p →
      pyPos p.amount = false ∧
        (cleanAmount r.amount ≠ .nan → pyNonPos p.amount = true)) := by
  constructor
  · intro hasOrigCol r p hm
    cases hd : r.date with
    | none => simp [maxRowToTx?, hd] at hm
    | some d =>
      cases hp : parseDateS d with
      | none => simp [maxRowToTx?, hd, hp] at hm
      | some dt =>
        simp only [maxRowToTx?, hd, hp, Option.some.injEq] at hm
        subst hm
        exact ⟨negAbs_not_pos _, fun hx => negAbs_nonPos _ hx⟩
  · intro r p hm
    cases hd : r.date with
    | none => simp [calRowToTx?, hd] at hm
    | some d =>
      cases hp : parseDateS d with
      | none => simp [calRowToTx?, hd, hp] at hm
      | some dt =>
        simp only [calRowToTx?, hd, hp, Option.some.injEq] at hm
        subst hm
        exact ⟨negAbs_not_pos _, fun hx => negAbs_nonPos _ hx⟩

/-- Witness for C5 (amended) at unsigned-positive amount cells. -/
theorem credit_card_amounts_nonpositive_witness :
    pyNonPos (pyNeg (pyAbs (cleanAmount (some "100")))) = true ∧
    pyNonPos (pyNeg (pyAbs (cleanAmount (some "50")))) = true :=
  ⟨(credit_card_amounts_nonpositive.1 true
      ⟨some "01/02/2024", some "shop", some "100", none, none⟩ _ rfl).2 (by decide),
   (credit_card_amounts_nonpositive.2
      ⟨some "01/02/2024", some "shop", some "50", none⟩ _ rfl).2 (by decide)⟩

/-- C8: a regex rule whose pattern fails to compile matches no
transaction: _rule_matches returns false for every description and
merchant text, and being total it propagates no exception. -/
theorem invalid_regex_rule_never_matches
    (compile : String → Option (String → Bool)) (rule : CategorizationRule)
    (hty : rule.rule_type = "regex") (hc : compile (lowerS rule.pattern) = none)
    (description merchant : String) :
    ruleMatches compile rule description merchant = false := by
  simp [ruleMatches, hty, hc]

/-- Witness for C8 with an engine rejecting the pattern. -/
theorem invalid_regex_rule_never_matches_witness :
    ruleMatches (fun _ => none) ⟨3, "regex", "[", 5, true⟩ "desc" "merch" = false :=
  invalid_regex_rule_never_matches (fun _ => none) ⟨3, "regex", "[", 5, true⟩
    rfl rfl "desc" "merch"

/-- C7: every row whose date cell is missing or matches none of the date
formats is silently dropped by the parser row loops, and the number of
rows dropped this way is exactly the input row count minus the number of
returned transactions (shown for the Leumi, Max and Cal row loops). -/
theorem unparseable_dates_skipped (lrows : List LeumiRow) (hasOrigCol : Bool)
    (mrows : List MaxRow) (crows : List CalRow) :
    (leumiParse lrows).length
        + (lrows.filter (fun r => (parseDate r.date).isNone)).length = lrows.length ∧
    (maxParse hasOrigCol mrows).length
        + (mrows.filter (fun r => (parseDate r.date).isNone)).length = mrows.length ∧
    (calParse crows).length
        + (crows.filter (fun r => (parseDate r.date).isNone)).length = crows.length := by
  refine ⟨?_, ?_, ?_⟩
  · have h : lrows.filter (fun r => (parseDate r.date).isNone)
        = lrows.filter (fun r => (leumiRowToTx? r).isNone) :=
      List.filter_congr (fun r _ => (leumiRowToTx?_isNone r).symm)
    rw [leumiParse, h, length_filterMap_add_none]
  · have h : mrows.filter (fun r => (parseDate r.date).isNone)
        = mrows.filter (fun r => (maxRowToTx? hasOrigCol r).isNone) :=
      List.filter_congr (fun r _ => (maxRowToTx?_isNone hasOrigCol r).symm)
    rw [maxParse, h, length_filterMap_add_none]
  · have h : crows.filter (fun r => (parseDate r.date).isNone)
        = crows.filter (fun r => (calRowToTx? r).isNone) :=
      List.filter_congr (fun r _ => (calRowToTx?_isNone r).symm)
    rw [calParse, h, length_filterMap_add_none]

/-- C2 counterexample: a parsed row with a NaN amount (exactly what the
" nan" amount cell of the C5 counterexample produces) is never matched by
the duplicate query - the SQL comparison never equates NaN, shown here
against an identical stored record - and importing such a file aborts
with the NOT NULL IntegrityError of the commit instead of completing
with zero inserts and skipped duplicates, refuting the claim as
stated. -/
theorem import_nan_not_idempotent :
    sqlFloatEq PyFloat.nan PyFloat.nan = false ∧
    isDuplicate [mkImportedTransaction 1 "f.csv" 0
        ⟨⟨2024, 1, 2⟩, PyFloat.nan, "nan row", none, none, none, none⟩] 1
      ⟨⟨2024, 1, 2⟩, PyFloat.nan, "nan row", none, none, none, none⟩ = false ∧
    importTransactions [] 1 "f.csv"
        [⟨⟨2024, 1, 2⟩, PyFloat.nan, "nan row", none, none, none, none⟩] true "Max"
      = .error "IntegrityError: NOT NULL constraint failed: transactions.amount" :=
  ⟨rfl, rfl, rfl⟩

/-- C2 (amended): for a parsed file all of whose amounts are numbers (no
NaN amount cell), importing it twice into the same account with
skip_duplicates=true makes the second import insert nothing: the
first import commits, every parsed row then matches a stored record on
(account_id, date, amount, description) under the SQL float comparison,
and the second import returns the unchanged store counting every row as
a skipped duplicate.  A NaN amount escapes both the duplicate check and
the NOT NULL amount column, so the restriction is necessary. -/
theorem import_idempotent (txs : List Transaction) (parsed : List ParsedTransaction)
    (account_id : Int) (src1 src2 bank1 bank2 : String)
    (hnum : ∀ p ∈ parsed, p.amount ≠ PyFloat.nan) :
    ∃ txs1 stats1,
      importTransactions txs account_id src1 parsed true bank1 = .ok (txs1, stats1) ∧
      (∀ p ∈ parsed, isDuplicate txs1 account_id p = true) ∧
      importTransactions txs1 account_id src2 parsed true bank2
        = .ok (txs1, ⟨parsed.length, 0, parsed.length, 0, bank2⟩) := by
  obtain ⟨more, hm, hmem⟩ := importLoop_extends account_id src1 true parsed txs 0
    ⟨parsed.length, 0, 0, 0, bank1⟩
  refine ⟨(importLoop account_id src1 true txs parsed 0
      ⟨parsed.length, 0, 0, 0, bank1⟩).1,
    (importLoop account_id src1 true txs parsed 0 ⟨parsed.length, 0, 0, 0, bank1⟩).2,
    ?_, ?_, ?_⟩
  · have hall : ((importLoop account_id src1 true txs parsed 0
        ⟨parsed.length, 0, 0, 0, bank1⟩).1.drop txs.length).all
          (fun t => !(t.amount == PyFloat.nan)) = true := by
      rw [hm, List.drop_left]
      rw [List.all_eq_true]
      intro t ht
      obtain ⟨p, hp, j, rfl⟩ := hmem t ht
      simp [mkImportedTransaction]
      exact hnum p hp
    rw [importTransactions.eq_def, if_pos hall]
  · exact fun p hp => importLoop_covers account_id src1 parsed txs 0
      ⟨parsed.length, 0, 0, 0, bank1⟩ p hp (hnum p hp)
  · have hall2 : ∀ p ∈ parsed,
        isDuplicate (importLoop account_id src1 true txs parsed 0
          ⟨parsed.length, 0, 0, 0, bank1⟩).1 account_id p = true :=
      fun p hp => importLoop_covers account_id src1 parsed txs 0
        ⟨parsed.length, 0, 0, 0, bank1⟩ p hp (hnum p hp)
    rw [importTransactions.eq_def]
    rw [importLoop_allDup account_id src2 parsed _ 0 _ hall2]
    simp

/-- Witness for C2 (amended) on a one-row numeric file imported into an
empty store. -/
theorem import_idempotent_witness :
    ∃ txs1 stats1,
      importTransactions [] 1 "f.csv"
          [⟨⟨2024, 1, 2⟩, .finite 5, "coffee", none, none, none, none⟩] true "Leumi"
        = .ok (txs1, stats1) ∧
      (∀ p ∈ [(⟨⟨2024, 1, 2⟩, .finite 5, "coffee", none, none, none,
          none⟩ : ParsedTransaction)], isDuplicate txs1 1 p = true) ∧
      importTransactions txs1 1 "g.csv"
          [⟨⟨2024, 1, 2⟩, .finite 5, "coffee", none, none, none, none⟩] true "Leumi"
        = .ok (txs1, ⟨1, 0, 1, 0, "Leumi"⟩) :=
  import_idempotent [] [⟨⟨2024, 1, 2⟩, .finite 5, "coffee", none, none, none, none⟩]
    1 "f.csv" "g.csv" "Leumi" "Leumi" (by decide)

theorem find?_sorted_max (p : CategorizationRule → Bool) :
    ∀ l : List CategorizationRule, l.Sorted ruleGE →
      ∀ r : CategorizationRule, r ∈ l → p r = true →
      (∀ x ∈ l, p x = true → x = r ∨ x.priority < r.priority) →
      l.find? p = some r := by
  intro l
  induction l with
  | nil => intro _ r hr; cases hr
  | cons a tl ih =>
    intro hs r hr hp hmax
    cases hpa : p a with
    | true =>
      have ha : a = r := by
        rcases List.mem_cons.mp hr with h | h
        · exact h.symm
        · rcases hmax a (List.mem_cons_self a tl) hpa with he | hlt
          · exact he
          · have hle : r.priority ≤ a.priority := (List.sorted_cons.mp hs).1 r h
            exact absurd (lt_of_lt_of_le hlt hle) (lt_irrefl _)
      simp [List.find?, hpa, hp, ha]
    | false =>
      have hne : r ≠ a := fun he => by rw [he, hpa] at hp; cases hp
      have hrtl : r ∈ tl := by
        rcases List.mem_cons.mp hr with h | h
        · exact absurd h hne
        · exact h
      have := ih (List.sorted_cons.mp hs).2 r hrtl hp
        (fun x hx hpx => hmax x (List.mem_cons_of_mem a hx) hpx)
      simp [List.find?, hpa, this]

theorem categorizeByRules_max (compile : String → Option (String → Bool))
    (rules : List CategorizationRule) (t : Transaction) (r : CategorizationRule)
    (hmem : r ∈ rules) (hact : r.is_active = true)
    (hmatch : ruleMatches compile r (lowerS t.description)
      (lowerS (t.merchant.getD "")) = true)
    (hmax : ∀ x ∈ rules, x.is_active = true →
      ruleMatches compile x (lowerS t.description) (lowerS (t.merchant.getD "")) = true →
      x = r ∨ x.priority < r.priority) :
    categorizeByRules compile rules t = some r.category_id := by
  have hsorted : (loadRules rules).Sorted ruleGE := by
    rw [loadRules]; exact List.sorted_insertionSort ruleGE _
  have hmem2 : r ∈ loadRules rules := by
    rw [loadRules, List.mem_insertionSort]
    exact List.mem_filter.mpr ⟨hmem, hact⟩
  have hfind := find?_sorted_max
    (fun x => ruleMatches compile x (lowerS t.description) (lowerS (t.merchant.getD "")))
    (loadRules rules) hsorted r hmem2 hmatch ?_
  · rw [categorizeByRules]
    simp only [hfind]
    rfl
  · intro x hx hpx
    have hx2 : x ∈ rules.filter (·.is_active) := by
      rw [loadRules, List.mem_insertionSort] at hx
      exact hx
    exact hmax x (List.mem_filter.mp hx2).1
      (by simpa using (List.mem_filter.mp hx2).2) hpx

/-- C3: against any stored order of the active rules (any permutation),
a matching active rule of strictly highest priority among the matching
active rules is the first match of the priority-descending evaluation,
and categorize_transaction returns its category id with method "rule" and
confidence 1.0, regardless of creation order. -/
theorem first_matching_rule_wins (compile : String → Option (String → Bool))
    (rules rulesPerm : List CategorizationRule) (hperm : rules.Perm rulesPerm)
    (jsonParse : String → Option LlmJson) (apiKey : String)
    (categories : List Category) (call : Except String String) (use_llm : Bool)
    (t : Transaction) (r : CategorizationRule)
    (hmem : r ∈ rules) (hact : r.is_active = true) (hcid : r.category_id ≠ 0)
    (hmatch : ruleMatches compile r (lowerS t.description)
      (lowerS (t.merchant.getD "")) = true)
    (hmax : ∀ x ∈ rules, x.is_active = true →
      ruleMatches compile x (lowerS t.description) (lowerS (t.merchant.getD "")) = true →
      x = r ∨ x.priority < r.priority) :
    categorizeTransaction compile rulesPerm jsonParse apiKey categories call use_llm t
      = (some r.category_id, "rule", 1) := by
  have hcb : categorizeByRules compile rulesPerm t = some r.category_id :=
    categorizeByRules_max compile rulesPerm t r (hperm.mem_iff.mp hmem) hact hmatch
      (fun x hx ha hm => hmax x (hperm.mem_iff.mpr hx) ha hm)
  rw [categorizeTransaction]
  simp [hcb, pyTruthyOptInt, hcid]

/-- Witness for C3: a higher-priority keyword rule beats a lower-priority
one that also matches, with the two creation orders giving the same
result. -/
theorem first_matching_rule_wins_witness :
    categorizeTransaction (fun _ => none)
      [⟨5, "keyword", "Coffee", 10, true⟩, ⟨7, "keyword", "cof", 1, true⟩]
      (fun _ => none) "" [] (.ok "") false
      ⟨1, ⟨2024, 1, 1⟩, .finite (-10), "Coffee Shop", none, none, false,
        none, none, none, none, none, none, none⟩
      = (some 5, "rule", 1) :=
  first_matching_rule_wins (fun _ => none)
    [⟨7, "keyword", "cof", 1, true⟩, ⟨5, "keyword", "Coffee", 10, true⟩]
    [⟨5, "keyword", "Coffee", 10, true⟩, ⟨7, "keyword", "cof", 1, true⟩]
    (List.Perm.swap _ _ _)
    (fun _ => none) "" [] (.ok "") false
    ⟨1, ⟨2024, 1, 1⟩, .finite (-10), "Coffee Shop", none, none, false,
      none, none, none, none, none, none, none⟩
    ⟨5, "keyword", "Coffee", 10, true⟩
    (by simp) rfl (by decide) (by decide) (by decide)

/-- C4: when the LLM transport raises or the response text is not
parseable as JSON after fence stripping, _categorize_by_llm returns
(None, 0.0) instead of propagating; a transaction that no rule matched
therefore stays uncategorized and the bulk run counts it as failed. -/
theorem llm_failure_fails_open (compile : String → Option (String → Bool))
    (rules : List CategorizationRule) (jsonParse : String → Option LlmJson)
    (apiKey : String) (categories : List Category) (call : Except String String)
    (t : Transaction)
    (hrc : categorizeByRules compile rules t = none)
    (hfail : (∃ e, call = .error e) ∨
      ∀ txt, call = .ok txt → jsonParse (extractResponseText txt) = none) :
    categorizeByLlm jsonParse apiKey categories call = (none, 0) ∧
    categorizeTransaction compile rules jsonParse apiKey categories call true t
      = (none, "none", 0) ∧
    (t.is_categorized = false →
      categorizeAllUncategorized compile rules jsonParse apiKey categories
        (fun _ => call) true [t] = ([t], ⟨1, 0, 1, 0, 0⟩)) := by
  have hllm : categorizeByLlm jsonParse apiKey categories call = (none, 0) := by
    rcases hfail with ⟨e, he⟩ | hok
    · subst he
      rw [categorizeByLlm]
      cases hk : (apiKey == "") <;> simp [hk]
    · cases hc : call with
      | error e =>
        rw [categorizeByLlm]
        cases hk : (apiKey == "") <;> simp [hk]
      | ok txt =>
        have hj := hok txt hc
        rw [categorizeByLlm]
        cases hk : (apiKey == "") <;> simp [hk, hj]
  have hct : categorizeTransaction compile rules jsonParse apiKey categories call true t
      = (none, "none", 0) := by
    rw [categorizeTransaction]
    simp [hrc, hllm, pyTruthyOptInt]
  refine ⟨hllm, hct, fun hu => ?_⟩
  rw [categorizeAllUncategorized]
  simp [hu, hct, catStatsStep, applyCategorizationResult, pyTruthyOptInt]

/-- Witness for C4: a non-JSON response on a transaction matching no
rule. -/
theorem llm_failure_fails_open_witness :
    categorizeByLlm (fun _ => none) "key"
      [⟨2, "Food", none, "expense", none, none, false⟩] (.ok "not json") = (none, 0) ∧
    categorizeAllUncategorized (fun _ => none) [] (fun _ => none) "key"
      [⟨2, "Food", none, "expense", none, none, false⟩] (fun _ => .ok "not json") true
      [⟨1, ⟨2024, 1, 1⟩, .finite (-10), "mystery", none, none, false,
        none, none, none, none, none, none, none⟩]
      = ([⟨1, ⟨2024, 1, 1⟩, .finite (-10), "mystery", none, none, false,
          none, none, none, none, none, none, none⟩], ⟨1, 0, 1, 0, 0⟩) :=
  ⟨(llm_failure_fails_open (fun _ => none) [] (fun _ => none) "key"
      [⟨2, "Food", none, "expense", none, none, false⟩] (.ok "not json")
      ⟨1, ⟨2024, 1, 1⟩, .finite (-10), "mystery", none, none, false,
        none, none, none, none, none, none, none⟩
      (by decide) (Or.inr (fun txt h => by cases h; rfl))).1,
   (llm_failure_fails_open (fun _ => none) [] (fun _ => none) "key"
      [⟨2, "Food", none, "expense", none, none, false⟩] (.ok "not json")
      ⟨1, ⟨2024, 1, 1⟩, .finite (-10), "mystery", none, none, false,
        none, none, none, none, none, none, none⟩
      (by decide) (Or.inr (fun txt h => by cases h; rfl))).2.2 rfl⟩

theorem pyTruthyOptInt_isSome {o : Option Int} (h : pyTruthyOptInt o = true) :
    o.isSome = true := by
  cases o with
  | none => cases h
  | some n => rfl

/-- C1 counterexample: the manual categorization route sets
categorization_confidence = 1.0 together with method "manual" (the rule
path of the bulk run likewise stores confidence 1.0 with method "rule"),
so confidence is defined for transactions not categorized by "llm",
refuting the only-llm conjunct of the claim. -/
theorem confidence_set_by_manual_update :
    ∃ t2, updateTransaction [⟨5, "Food", none, "expense", none, none, false⟩]
        (mkImportedTransaction 1 "f.csv" 0
          ⟨⟨2024, 1, 2⟩, .finite (-10), "x", none, none, none, none⟩)
        (some 5) none = .ok t2 ∧
      t2.categorization_confidence = some 1 ∧
      t2.categorization_method = some "manual" ∧
      t2.is_categorized = true :=
  ⟨_, rfl, rfl, rfl, rfl⟩

/-- C1 (amended): along every operation the code performs on a persisted
transaction (import, rule or LLM categorization through the shared
assignment block, manual categorization or notes update), is_categorized
is true exactly when category_id is set, and categorization_confidence is
defined only on categorized transactions - for every categorization
method, not only "llm" (rule and manual store 1.0). -/
theorem categorization_invariant (t : Transaction) (h : Reachable t) :
    (t.is_categorized = t.category_id.isSome) ∧
    (t.categorization_confidence.isSome = true → t.is_categorized = true) := by
  induction h with
  | imported account_id source_file row_idx p => simp [mkImportedTransaction]
  | categorized t compile rules jsonParse apiKey categories call use_llm ht ih =>
    rw [applyCategorizationResult]
    cases hb : pyTruthyOptInt
        (categorizeTransaction compile rules jsonParse apiKey categories call
          use_llm t).1 with
    | true =>
      exact ⟨(pyTruthyOptInt_isSome hb).symm, fun _ => rfl⟩
    | false =>
      exact ih
  | manual t t2 categories category_id notes ht heq ih =>
    cases category_id with
    | some c =>
      cases hf : categories.find? (fun cat => cat.id == c) with
      | none => simp [updateTransaction, hf] at heq
      | some cat =>
        cases notes with
        | some n =>
          simp only [updateTransaction, hf, Except.ok.injEq] at heq
          subst heq
          exact ⟨rfl, fun _ => rfl⟩
        | none =>
          simp only [updateTransaction, hf, Except.ok.injEq] at heq
          subst heq
          exact ⟨rfl, fun _ => rfl⟩
    | none =>
      cases notes with
      | some n =>
        simp only [updateTransaction, Except.ok.injEq] at heq
        subst heq
        exact ih
      | none =>
        simp only [updateTransaction, Except.ok.injEq] at heq
        subst heq
        exact ih

/-- Witness for C1 (amended) on a freshly imported transaction. -/
theorem categorization_invariant_witness :
    ((mkImportedTransaction 1 "f.csv" 0
        ⟨⟨2024, 1, 2⟩, .finite (-10), "x", none, none, none, none⟩).is_categorized
      = (mkImportedTransaction 1 "f.csv" 0
        ⟨⟨2024, 1, 2⟩, .finite (-10), "x", none, none, none, none⟩).category_id.isSome) :=
  (categorization_invariant _ (Reachable.imported 1 "f.csv" 0
    ⟨⟨2024, 1, 2⟩, .finite (-10), "x", none, none, none, none⟩)).1

/-- C9: deleting a category with at least one transaction, or at least
one subcategory, is refused with an error that carries the respective
count; system categories are unconditionally refused deletion, and a
rename request on a system category is refused by the update route.  In
this functional model an error result carries no new state: the route
raises before any mutation, so the store is unchanged. -/
theorem category_deletion_guards :
    (∀ (db : Db) (cid : Int) (c : Category),
      db.categories.find? (fun o => o.id == cid) = some c → c.is_system = true →
      deleteCategory db cid = .error "Cannot delete system categories") ∧
    (∀ (db : Db) (cid : Int) (c : Category),
      db.categories.find? (fun o => o.id == cid) = some c → c.is_system = false →
      0 < transactionCount db cid →
      deleteCategory db cid = .error ("Cannot delete category with "
        ++ toString (transactionCount db cid)
        ++ " transactions. Re-categorize them first.")) ∧
    (∀ (db : Db) (cid : Int) (c : Category),
      db.categories.find? (fun o => o.id == cid) = some c → c.is_system = false →
      transactionCount db cid = 0 → 0 < subcategoryCount db cid →
      deleteCategory db cid = .error ("Cannot delete category with "
        ++ toString (subcategoryCount db cid)
        ++ " subcategories. Delete or move them first.")) ∧
    (∀ (db : Db) (cid : Int) (c : Category) (updates : CategoryUpdate),
      db.categories.find? (fun o => o.id == cid) = some c → c.is_system = true →
      pyTruthyOptStr updates.name = true →
      updateCategory db cid updates = .error "Cannot rename system categories") := by
  refine ⟨?_, ?_, ?_, ?_⟩
  · intro db cid c hf hsys
    simp [deleteCategory, hf, hsys]
  · intro db cid c hf hsys htx
    simp [deleteCategory, hf, hsys, htx]
  · intro db cid c hf hsys htx hsub
    simp [deleteCategory, hf, hsys, htx, hsub]
  · intro db cid c updates hf hsys hname
    simp [updateCategory, hf, hsys, hname]

/-- Witness for C9: the four refusal scenarios on concrete stores. -/
theorem category_deletion_guards_witness :
    deleteCategory ⟨[⟨1, "System", none, "expense", none, none, true⟩], [], []⟩ 1
      = .error "Cannot delete system categories" ∧
    deleteCategory ⟨[⟨1, "Food", none, "expense", none, none, false⟩],
        [⟨7, ⟨2024, 1, 1⟩, .finite (-30), "pizza", none, some 1, true, some "manual",
          some 1, none, none, none, none, none⟩], []⟩ 1
      = .error "Cannot delete category with 1 transactions. Re-categorize them first." ∧
    deleteCategory ⟨[⟨1, "Parent", none, "expense", none, none, false⟩,
        ⟨2, "Child", some 1, "expense", none, none, false⟩], [], []⟩ 1
      = .error "Cannot delete category with 1 subcategories. Delete or move them first." ∧
    updateCategory ⟨[⟨1, "System", none, "expense", none, none, true⟩], [], []⟩ 1
        ⟨some "Renamed", none, none, none⟩
      = .error "Cannot rename system categories" :=
  ⟨category_deletion_guards.1 _ 1
      ⟨1, "System", none, "expense", none, none, true⟩ rfl rfl,
   category_deletion_guards.2.1 _ 1
      ⟨1, "Food", none, "expense", none, none, false⟩ rfl rfl (by decide),
   category_deletion_guards.2.2.1 _ 1
      ⟨1, "Parent", none, "expense", none, none, false⟩ rfl rfl (by decide) (by decide),
   category_deletion_guards.2.2.2 _ 1
      ⟨1, "System", none, "expense", none, none, true⟩
      ⟨some "Renamed", none, none, none⟩ rfl rfl rfl⟩

theorem map_reassign_tx_self (txs : List Transaction) (cid : Int) :
    txs.map (fun t => if t.category_id == some cid
      then { t with category_id := some cid } else t) = txs := by
  have hone : ∀ t : Transaction,
      (if t.category_id == some cid then { t with category_id := some cid } else t) = t := by
    intro t
    by_cases h : t.category_id = some cid
    · rw [if_pos (by simp [h]), ← h]
    · rw [if_neg (by simp [h])]
  induction txs with
  | nil => rfl
  | cons hd tl ih => rw [List.map_cons, hone hd, ih]

theorem map_reassign_rule_self (rules : List CategorizationRule) (cid : Int) :
    rules.map (fun r => if r.category_id == cid
      then { r with category_id := cid } else r) = rules := by
  have hone : ∀ r : CategorizationRule,
      (if r.category_id == cid then { r with category_id := cid } else r) = r := by
    intro r
    by_cases h : r.category_id = cid
    · rw [if_pos (by simp [h]), ← h]
    · rw [if_neg (by simp [h])]
  induction rules with
  | nil => rfl
  | cons hd tl ih => rw [List.map_cons, hone hd, ih]

theorem eraseP_no_more (l : List Category) (cid : Int)
    (hnodup : (l.map (·.id)).Nodup) (src : Category)
    (hf : l.find? (fun c => c.id == cid) = some src) :
    ∀ c ∈ l.eraseP (fun c => c.id == cid), c.id ≠ cid := by
  have hmem := List.mem_of_find?_eq_some hf
  have hp : (src.id == cid) = true :=
    List.find?_some (p := fun c : Category => c.id == cid) hf
  obtain ⟨a, l₁, l₂, hnl, hpa, hl, he⟩ :=
    List.exists_of_eraseP (p := fun c : Category => c.id == cid) hmem hp
  rw [he]
  intro c hc hceq
  rcases List.mem_append.mp hc with h1 | h2
  · exact hnl c h1 (by simp [hceq])
  · have haid : a.id = cid := by simpa using hpa
    rw [hl, List.map_append, List.map_cons] at hnodup
    have hnotin : a.id ∉ l₂.map (·.id) :=
      (List.nodup_cons.mp (List.nodup_append.mp hnodup).2.1).1
    exact hnotin (by
      rw [haid, ← hceq]
      exact List.mem_map_of_mem (·.id) h2)

/-- C10 counterexample: on a store with one transaction and one rule
under the category, the self-merge aborts with IntegrityError (the rule
still references the deleted source at flush and its category_id column
is NOT NULL); with transactions only, the self-merge commits but leaves
the transaction with category_id NULL, not a dangling reference to the
deleted id.  Either way the claimed outcome - success with category_id
still set to an id no category carries - does not occur. -/
theorem merge_self_no_dangling :
    mergeCategories ⟨[⟨1, "Dining", none, "expense", none, none, false⟩],
        [⟨7, ⟨2024, 1, 1⟩, .finite (-30), "pizza", none, some 1, true, some "manual",
          some 1, none, none, none, none, none⟩],
        [⟨1, "keyword", "pizza", 5, true⟩]⟩ 1 1
      = .error "IntegrityError: NOT NULL constraint failed: categorization_rules.category_id" ∧
    (∃ db2 msg, mergeCategories ⟨[⟨1, "Dining", none, "expense", none, none, false⟩],
        [⟨7, ⟨2024, 1, 1⟩, .finite (-30), "pizza", none, some 1, true, some "manual",
          some 1, none, none, none, none, none⟩], []⟩ 1 1
      = .ok (db2, msg) ∧
      db2.transactions.map (fun t => t.category_id) = [none] ∧
      db2.categories = []) :=
  ⟨rfl, _, _, rfl, rfl, rfl⟩

/-- C10 (amended): merge_categories validates only that both categories
exist and that the source is not a system category, so a target equal to
the source passes validation; the reassignment of the transactions and
rules of the source to itself is the identity, and the deletion of the
source then decides the outcome at flush: if any rule still references
the source the commit fails with IntegrityError and nothing is persisted,
and otherwise the merge commits with the source row gone and its
transactions left with no category (category_id NULL), never with a
dangling id.  The Nodup hypothesis is the primary-key uniqueness of
category ids. -/
theorem category_merge_self_outcome (db : Db) (cid : Int) (source : Category)
    (hf : db.categories.find? (fun c => c.id == cid) = some source)
    (hsys : source.is_system = false)
    (hnodup : (db.categories.map (·.id)).Nodup) :
    (0 < (db.rules.filter (fun r => r.category_id == cid)).length →
      mergeCategories db cid cid
        = .error "IntegrityError: NOT NULL constraint failed: categorization_rules.category_id") ∧
    ((db.rules.filter (fun r => r.category_id == cid)).length = 0 →
      ∃ db2 msg, mergeCategories db cid cid = .ok (db2, msg) ∧
        (∀ c ∈ db2.categories, c.id ≠ cid) ∧
        db2.transactions = db.transactions.map (fun t =>
          if t.category_id == some cid then { t with category_id := none } else t) ∧
        db2.rules = db.rules) := by
  constructor
  · intro hlen
    obtain ⟨x, hx⟩ := List.exists_mem_of_length_pos hlen
    have hx2 := List.mem_filter.mp hx
    have hany : db.rules.any (fun r => r.category_id == cid) = true :=
      List.any_eq_true.mpr ⟨x, hx2.1, hx2.2⟩
    simp only [mergeCategories, hf, hsys, Bool.false_eq_true, if_false,
      map_reassign_rule_self, hany, if_true]
  · intro hlen
    have hany : db.rules.any (fun r => r.category_id == cid) = false := by
      rw [← Bool.not_eq_true, List.any_eq_true]
      rintro ⟨x, hx, hpx⟩
      rw [List.length_eq_zero] at hlen
      have hmem : x ∈ db.rules.filter (fun r => r.category_id == cid) :=
        List.mem_filter.mpr ⟨hx, hpx⟩
      rw [hlen] at hmem
      cases hmem
    refine ⟨⟨db.categories.eraseP (fun c => c.id == cid),
        db.transactions.map (fun t =>
          if t.category_id == some cid then { t with category_id := none } else t),
        db.rules⟩,
      "Merged " ++ toString
          (db.transactions.filter (fun t => t.category_id == some cid)).length
        ++ " transactions and "
        ++ toString (db.rules.filter (fun r => r.category_id == cid)).length
        ++ " rules into target category", ?_, ?_, rfl, rfl⟩
    · simp only [mergeCategories, hf, hsys, Bool.false_eq_true, if_false,
        map_reassign_tx_self, map_reassign_rule_self, hany]
    · exact eraseP_no_more db.categories cid hnodup source hf

/-- Witness for C10 (amended): the rule scenario aborts and the
transactions-only scenario commits with a NULL category. -/
theorem category_merge_self_outcome_witness :
    mergeCategories ⟨[⟨1, "Dining", none, "expense", none, none, false⟩], [],
        [⟨1, "keyword", "pizza", 5, true⟩]⟩ 1 1
      = .error "IntegrityError: NOT NULL constraint failed: categorization_rules.category_id" ∧
    (∃ db2 msg, mergeCategories ⟨[⟨1, "Dining", none, "expense", none, none, false⟩],
        [⟨7, ⟨2024, 1, 1⟩, .finite (-30), "pizza", none, some 1, true, some "manual",
          some 1, none, none, none, none, none⟩], []⟩ 1 1
      = .ok (db2, msg) ∧
      (∀ c ∈ db2.categories, c.id ≠ 1) ∧
      db2.transactions
        = [⟨7, ⟨2024, 1, 1⟩, .finite (-30), "pizza", none, some 1, true, some "manual",
            some 1, none, none, none, none, none⟩].map (fun t =>
          if t.category_id == some 1 then { t with category_id := none } else t) ∧
      db2.rules = []) :=
  ⟨(category_merge_self_outcome
      ⟨[⟨1, "Dining", none, "expense", none, none, false⟩], [],
        [⟨1, "keyword", "pizza", 5, true⟩]⟩ 1
      ⟨1, "Dining", none, "expense", none, none, false⟩
      rfl rfl (by simp)).1 (by decide),
   (category_merge_self_outcome
      ⟨[⟨1, "Dining", none, "expense", none, none, false⟩],
        [⟨7, ⟨2024, 1, 1⟩, .finite (-30), "pizza", none, some 1, true, some "manual",
          some 1, none, none, none, none, none⟩], []⟩ 1
      ⟨1, "Dining", none, "expense", none, none, false⟩
      rfl rfl (by simp)).2 rfl⟩

end FinAnalyzer
